import Mathlib

/-!
Verification development for the stratum repository core: the noise-sv2
handshake and transport layer (protocols/v2/noise-sv2/src/lib.rs), the
connection-wide mining message router
(protocols/v2/roles-logic-sv2/src/handlers/mining.rs) and the mining
proxy's downstream node (roles/v2/mining-proxy/src/lib/downstream_mining.rs).

Pure and stateful Rust code is shallowly embedded: byte buffers become
lists of naturals, mutable state becomes explicit state passing, and
fallible operations return Except or Option.  Parts of the repository
that the given sources reference but whose files are not available
(the snow handshake engine internals, const-sv2 constants, auth.rs,
error.rs, handshake.rs, parsers.rs, errors.rs, upstream-mining and
job-dispatcher modules) are modelled from the specification, and each
such definition is marked in its doc comment.
-/

namespace Stratum

/-- Bytes on the wire are modelled as lists of naturals. -/
abbrev Bytes : Type := List Nat

/-- SNOW_PSKLEN from const-sv2 (snow private constant redefined in lib.rs);
32 bytes, the length of a Curve25519 public key. -/
def SNOW_PSKLEN : Nat := 32

/-- SNOW_TAGLEN from const-sv2 (snow private constant redefined in lib.rs);
16 bytes, the AEAD authentication tag length. -/
def SNOW_TAGLEN : Nat := 16

/-- SIGNATURE_MESSAGE_LEN from noise-sv2 lib.rs: the serialized
SignatureNoiseMessage is 76 bytes. -/
def SIGNATURE_MESSAGE_LEN : Nat := 76

/-- NOISE_FRAME_HEADER_SIZE: the cleartext 2-byte length header. -/
def HEADER_SIZE : Nat := 2

/-- Modelled from the spec: MAX_MESSAGE_SIZE (const-sv2
NOISE_FRAME_MAX_SIZE, file not available); the fixed maximum frame size,
the noise protocol ceiling of 65535 bytes. -/
def MAX_MESSAGE_SIZE : Nat := 65535

/-- BUFFER_LEN from noise-sv2 lib.rs: the full second-flight buffer,
2 * SNOW_PSKLEN + 2 * SNOW_TAGLEN + SIGNATURE_MESSAGE_LEN = 172. -/
def BUFFER_LEN : Nat :=
  SNOW_PSKLEN + SNOW_PSKLEN + SNOW_TAGLEN + SNOW_TAGLEN + SIGNATURE_MESSAGE_LEN

/-- Modulus of a 32-byte little-endian key encoding. -/
def KEY_MOD : Nat := 256 ^ 32

/-- The largest value of a u64 nonce; advancing past it would wrap. -/
def U64_MAX : Nat := 2 ^ 64 - 1

/-- Little-endian base-256 encoding of a natural into a fixed number of
bytes (the shape of a Curve25519 public key on the wire). -/
def encodeKeyAux : Nat → Nat → List Nat
  | 0, _ => []
  | n + 1, k => (k % 256) :: encodeKeyAux n (k / 256)

/-- A 32-byte public-key encoding. -/
def encodeKey (k : Nat) : Bytes := encodeKeyAux 32 k

/-- Little-endian base-256 decoding. -/
def decodeKey (b : Bytes) : Nat := List.foldr (fun x acc => x + 256 * acc) 0 b

/-- Modelled from the spec: one byte of the transport cipher keystream for
a given key, nonce and byte position.  The concrete mixing function is
immaterial; every property proved below holds for any such function. -/
def ksByte (k n i : Nat) : Nat := (k + 1000003 * n + 65537 * i + 17) % 256

/-- Mask a byte list with the keystream starting at position i:
the stream-cipher half of the AEAD, self-inverse by xor. -/
def maskBytes (k n : Nat) : Nat → List Nat → List Nat
  | _, [] => []
  | i, x :: xs => (x ^^^ ksByte k n i) :: maskBytes k n (i + 1) xs

/-- Modelled from the spec: the 16-byte authentication tag over a
ciphertext under a key and nonce. -/
def aeadTag (k n : Nat) (c : List Nat) : List Nat :=
  (List.range SNOW_TAGLEN).map
    (fun i => (k + 1000003 * n + decodeKey c + i) % 256)

/-- Modelled from the spec: authenticated encryption of a plaintext under
key k and nonce n; the output is the masked plaintext followed by a
16-byte tag, so its length is the plaintext length plus SNOW_TAGLEN. -/
def aeadEncrypt (k n : Nat) (m : Bytes) : Bytes :=
  maskBytes k n 0 m ++ aeadTag k n (maskBytes k n 0 m)

/-- Modelled from the spec: authenticated decryption; splits off the
16-byte tag, recomputes it over the ciphertext, fails on mismatch, and
otherwise unmasks. -/
def aeadDecrypt (k n : Nat) (cip : Bytes) : Option Bytes :=
  if cip.length < SNOW_TAGLEN then none
  else
    let c := cip.take (cip.length - SNOW_TAGLEN)
    let t := cip.drop (cip.length - SNOW_TAGLEN)
    if t = aeadTag k n c then some (maskBytes k n 0 c) else none

/-- Modelled from the spec: the error kinds surfaced by the noise core
(error.rs is not among the given sources; the specification lists
these kinds in its error handling design). -/
inductive NoiseError
  | HandshakeCrypto
  | BadCertificate
  | CertExpired
  | CertNotYetValid
  | ProtocolMisuse
  | UnexpectedMessage
  | CipherExhausted
  | TooLarge
  | AuthFailure
  | ShortBuffer
deriving DecidableEq, Repr

/-- TransportMode from noise-sv2 lib.rs: wraps the snow transport state,
which holds one key and one 64-bit nonce per direction (snow internals
modelled from the spec). -/
structure TransportMode where
  sendKey : Nat
  recvKey : Nat
  sendNonce : Nat
  recvNonce : Nat
deriving DecidableEq, Repr

/-- TransportMode::size_hint_encrypt from lib.rs. -/
def size_hint_encrypt (payload_len : Nat) : Nat := payload_len + SNOW_TAGLEN

/-- TransportMode::size_hint_decrypt from lib.rs (checked subtraction). -/
def size_hint_decrypt (encrypted_msg_len : Nat) : Option Nat :=
  if encrypted_msg_len < SNOW_TAGLEN then none
  else some (encrypted_msg_len - SNOW_TAGLEN)

/-- TransportMode::write from lib.rs: transport-mode encryption (the
snow write_message checks - nonce exhaustion and the 65535-byte noise
ceiling - are modelled from the spec).  Returns the advanced state and
the ciphertext. -/
def TransportMode.write (tm : TransportMode) (plain_msg : Bytes) :
    Except NoiseError (TransportMode × Bytes) :=
  if U64_MAX ≤ tm.sendNonce then .error .CipherExhausted
  else if MAX_MESSAGE_SIZE < plain_msg.length + SNOW_TAGLEN then .error .TooLarge
  else
    .ok ({ tm with sendNonce := tm.sendNonce + 1 },
         aeadEncrypt tm.sendKey tm.sendNonce plain_msg)

/-- TransportMode::read from lib.rs: transport-mode decryption (snow
internals modelled from the spec: nonce exhaustion, size ceiling, short
input, then tag verification).  Returns the advanced state and the
plaintext. -/
def TransportMode.read (tm : TransportMode) (encrypted_msg : Bytes) :
    Except NoiseError (TransportMode × Bytes) :=
  if U64_MAX ≤ tm.recvNonce then .error .CipherExhausted
  else if MAX_MESSAGE_SIZE < encrypted_msg.length then .error .TooLarge
  else if encrypted_msg.length < SNOW_TAGLEN then .error .ShortBuffer
  else
    match aeadDecrypt tm.recvKey tm.recvNonce encrypted_msg with
    | none => .error .AuthFailure
    | some p => .ok ({ tm with recvNonce := tm.recvNonce + 1 }, p)

/-- Modelled from the spec: symbolic Diffie-Hellman on 32-byte keys.  A
public key is its scalar reduced modulo the 32-byte encoding range, and
the shared secret of two keys is their product in that range, which makes
the exchange commute exactly as Curve25519 does. -/
def dh (a b : Nat) : Nat := (a * b) % KEY_MOD

/-- Modelled from the spec: the symmetric key protecting the responder
static key in the second flight, derived from the chaining key after the
ee mix. -/
def kdfS (ee : Nat) : Nat := 2 * ee + 3

/-- Modelled from the spec: the symmetric key protecting the second-flight
payload, derived after the es mix. -/
def kdfP (ee es : Nat) : Nat := (ee + 5) * KEY_MOD + es

/-- Modelled from the spec: the transport key for the
initiator-to-responder direction, split from the final chaining key. -/
def transportKeyIR (ee es : Nat) : Nat := (ee + 7) * KEY_MOD + 2 * es + 1

/-- Modelled from the spec: the transport key for the
responder-to-initiator direction. -/
def transportKeyRI (ee es : Nat) : Nat := (ee + 7) * KEY_MOD + 2 * es + 2

/-- SignedPartHeader from auth.rs (modelled from the spec): version,
valid_from and not_valid_after, serialized little-endian as 2 + 4 + 4
bytes. -/
structure SignedPartHeader where
  version : Nat
  valid_from : Nat
  not_valid_after : Nat
deriving DecidableEq, Repr

/-- Two-byte little-endian serialization. -/
def le2 (v : Nat) : Bytes := [v % 256, v / 256 % 256]

/-- Four-byte little-endian serialization. -/
def le4 (v : Nat) : Bytes :=
  [v % 256, v / 256 % 256, v / 65536 % 256, v / 16777216 % 256]

/-- Serialized SignedPartHeader: 10 bytes. -/
def SignedPartHeader.serialize (h : SignedPartHeader) : Bytes :=
  le2 h.version ++ le4 h.valid_from ++ le4 h.not_valid_after

/-- SignatureNoiseMessage from auth.rs (modelled from the spec): the
header plus a 64-byte Ed25519 signature; signature_len is fixed at 64 on
the wire. -/
structure SignatureNoiseMessage where
  header : SignedPartHeader
  signature : Bytes
deriving DecidableEq, Repr

/-- The signed part: header, the certified static key and the authority
public key, so that a certificate cannot be re-bound to another
authority. -/
def signedPartBytes (h : SignedPartHeader) (staticPub authorityPub : Nat) : Bytes :=
  h.serialize ++ encodeKey staticPub ++ encodeKey authorityPub

/-- Modelled from the spec: symbolic Ed25519 signing.  A keypair is a
scalar used for both halves; the signature is a deterministic 64-byte
function of the key and the message, so verification under the same key
recomputes it and any other key or message fails. -/
def ed25519Sign (key : Nat) (msg : Bytes) : Bytes :=
  encodeKeyAux 64 (key * 2 ^ 520 + decodeKey msg + 11)

/-- Modelled from the spec: symbolic Ed25519 verification. -/
def ed25519Verify (pubKey : Nat) (sig : Bytes) (msg : Bytes) : Bool :=
  sig = ed25519Sign pubKey msg

/-- SignatureNoiseMessage serialization: header, signature_len = 64,
signature; 76 bytes in total. -/
def SignatureNoiseMessage.serialize (snm : SignatureNoiseMessage) : Bytes :=
  snm.header.serialize ++ le2 64 ++ snm.signature

/-- SignatureNoiseMessage::try_from on a byte buffer (modelled from the
spec): requires the 76-byte layout and signature_len = 64. -/
def SignatureNoiseMessage.tryFrom (b : Bytes) : Option SignatureNoiseMessage :=
  if b.length = SIGNATURE_MESSAGE_LEN then
    if decodeKey ((b.drop 10).take 2) = 64 then
      some ⟨⟨decodeKey (b.take 2),
             decodeKey ((b.drop 2).take 4),
             decodeKey ((b.drop 6).take 4)⟩,
            b.drop 12⟩
    else none
  else none

/-- Certificate::validate from auth.rs (modelled from the spec): the
current time must lie in the validity window and the signature must
verify under the configured authority key over the signed part rebuilt
from the peer's static key. -/
def certificateValidate (snm : SignatureNoiseMessage) (remoteStatic authorityPub now : Nat) :
    Except NoiseError Unit :=
  if now < snm.header.valid_from then .error .CertNotYetValid
  else if snm.header.not_valid_after ≤ now then .error .CertExpired
  else if ed25519Verify authorityPub snm.signature
      (signedPartBytes snm.header remoteStatic authorityPub) then .ok ()
  else .error .BadCertificate

/-- Authority::new_cert (modelled from the spec): build a header valid
from now for the given duration and sign static key and authority key
under the authority keypair. -/
def authorityNewCert (authPriv authPub staticPub now duration : Nat) : SignatureNoiseMessage :=
  let h : SignedPartHeader := ⟨0, now, now + duration⟩
  ⟨h, ed25519Sign authPriv (signedPartBytes h staticPub authPub)⟩

/-- StepResult from handshake.rs (modelled from the spec). -/
inductive StepResult
  | ExpectReply (b : Bytes)
  | NoMoreReply (b : Bytes)
  | Done
deriving DecidableEq, Repr

/-- Initiator from noise-sv2 lib.rs.  The snow handshake state is
modelled by the local ephemeral secret and the accumulated DH results;
now is the clock instant used by certificate validation. -/
structure Initiator where
  stage : Nat
  e_priv : Nat
  authority_public_key : Nat
  now : Nat
  ee : Option Nat := none
  es : Option Nat := none
deriving DecidableEq, Repr

/-- Responder from noise-sv2 lib.rs: the snow handshake state is
modelled by the ephemeral and static secrets and the accumulated DH
results; signature_noise_message is the pre-serialized certificate. -/
structure Responder where
  stage : Nat
  e_priv : Nat
  s_priv : Nat
  signature_noise_message : Bytes
  ee : Option Nat := none
  es : Option Nat := none
deriving DecidableEq, Repr

/-- The tail of the initiator's stage-1 read, after the responder static
key bytes rsBytes have been decrypted under the ee-derived key: compute
es, decrypt the 76-byte payload, parse it as a SignatureNoiseMessage and
validate the certificate against the remote static key; on success the
DH results are recorded and the stage advances. -/
def initiatorCheckCert (i : Initiator) (m : Bytes) (ee : Nat) (rsBytes : Bytes) :
    Initiator × Except NoiseError StepResult :=
  match aeadDecrypt (kdfP ee (dh i.e_priv (decodeKey rsBytes))) 0
      (m.drop (SNOW_PSKLEN + SNOW_PSKLEN + SNOW_TAGLEN)) with
  | none => (i, .error .HandshakeCrypto)
  | some payload =>
    match SignatureNoiseMessage.tryFrom payload with
    | none => (i, .error .BadCertificate)
    | some snm =>
      match certificateValidate snm (decodeKey rsBytes)
          i.authority_public_key i.now with
      | .error e => (i, .error e)
      | .ok _ =>
        ({ i with stage := i.stage + 1, ee := some ee,
                  es := some (dh i.e_priv (decodeKey rsBytes)) },
         .ok .Done)

/-- The initiator's stage-1 read of the responder's <- e, ee, s, es, SIG
flight: recover the remote ephemeral key, compute ee, decrypt the remote
static key, then hand over to the certificate check. -/
def initiatorReadFlight (i : Initiator) (m : Bytes) :
    Initiator × Except NoiseError StepResult :=
  match aeadDecrypt (kdfS (dh i.e_priv (decodeKey (m.take SNOW_PSKLEN)))) 0
      ((m.drop SNOW_PSKLEN).take (SNOW_PSKLEN + SNOW_TAGLEN)) with
  | none => (i, .error .HandshakeCrypto)
  | some rsBytes =>
    initiatorCheckCert i m (dh i.e_priv (decodeKey (m.take SNOW_PSKLEN))) rsBytes

/-- Initiator::step from lib.rs.  Stage 0 writes the -> e message into a
SNOW_PSKLEN + SNOW_TAGLEN buffer and truncates it to the bytes actually
written: the message carries only the 32-byte ephemeral public key, with
no tag because no symmetric key exists yet.  Stage 1 reads the
responder's <- e, ee, s, es, SIG message and verifies the certificate.
Any later stage fails; the stage counter is advanced only on success. -/
def Initiator.step (i : Initiator) (in_msg : Option Bytes) :
    Initiator × Except NoiseError StepResult :=
  match i.stage with
  | 0 =>
    ({ i with stage := i.stage + 1 }, .ok (.ExpectReply (encodeKey i.e_priv)))
  | 1 =>
    match in_msg with
    | none => (i, .error .UnexpectedMessage)
    | some m =>
      if m.length = BUFFER_LEN then initiatorReadFlight i m
      else (i, .error .HandshakeCrypto)
  | _ => (i, .error .ProtocolMisuse)

/-- The bytes the responder's write_message produces for the second
flight: the ephemeral public key, the encrypted static key and the
encrypted signature noise message. -/
def responderFlight (r : Responder) (ee es : Nat) : Bytes :=
  encodeKey r.e_priv ++
    aeadEncrypt (kdfS ee) 0 (encodeKey r.s_priv) ++
    aeadEncrypt (kdfP ee es) 0 r.signature_noise_message

/-- Responder::step from lib.rs.  Stage 0 reads the -> e message into a
BUFFER_LEN buffer and writes the full second flight into that same
buffer; the vector handed out is the whole buffer, and the bytes
actually written are asserted to fill it.  Stage 1 emits Done.  Any
later stage fails; the stage counter is advanced only on success. -/
def Responder.step (r : Responder) (in_msg : Option Bytes) :
    Responder × Except NoiseError StepResult :=
  match r.stage with
  | 0 =>
    match in_msg with
    | none => (r, .error .UnexpectedMessage)
    | some m =>
      if m.length < SNOW_PSKLEN then (r, .error .HandshakeCrypto)
      else
        let ie := decodeKey (m.take SNOW_PSKLEN)
        let ee := dh r.e_priv ie
        let es := dh r.s_priv ie
        let written := responderFlight r ee es
        if BUFFER_LEN < written.length then (r, .error .HandshakeCrypto)
        else
          ({ r with stage := r.stage + 1, ee := some ee, es := some es },
           .ok (.NoMoreReply (written ++ List.replicate (BUFFER_LEN - written.length) 0)))
  | 1 => ({ r with stage := r.stage + 1 }, .ok .Done)
  | _ => (r, .error .ProtocolMisuse)

/-- into_transport_mode on a finished initiator (snow internals modelled
from the spec): both transport keys are split from the final chaining
state; the initiator sends on the IR key and receives on the RI key, and
both nonces start at zero. -/
def Initiator.intoTransportMode (i : Initiator) : Option TransportMode :=
  match i.ee, i.es with
  | some ee, some es => some ⟨transportKeyIR ee es, transportKeyRI ee es, 0, 0⟩
  | _, _ => none

/-- into_transport_mode on a finished responder: directions swapped. -/
def Responder.intoTransportMode (r : Responder) : Option TransportMode :=
  match r.ee, r.es with
  | some ee, some es => some ⟨transportKeyRI ee es, transportKeyIR ee es, 0, 0⟩
  | _, _ => none

/-- The two-flight handshake driven to completion, as in the repository
tests: initiator step, responder step on the first flight, initiator
step on the second flight, then both states are turned into transport
modes. -/
def runHandshake (i : Initiator) (r : Responder) :
    Option (TransportMode × TransportMode) :=
  match Initiator.step i none with
  | (i1, .ok (.ExpectReply m1)) =>
    match Responder.step r (some m1) with
    | (r1, .ok (.NoMoreReply m2)) =>
      match Initiator.step i1 (some m2) with
      | (i2, .ok .Done) =>
        match i2.intoTransportMode, r1.intoTransportMode with
        | some ti, some tr => some (ti, tr)
        | _, _ => none
      | _ => none
    | _ => none
  | _ => none

/-- SupportedChannelTypes from handlers/mining.rs. -/
inductive SupportedChannelTypes
  | Standard
  | Extended
  | Group
  | GroupAndExtended
deriving DecidableEq, Repr

/-- Modelled from the spec: the roles-logic error kinds referenced by the
router (errors.rs is not among the given sources).  UnexpectedMessage is
the admissibility failure; decode failures and the remaining kinds are
collapsed into BadMessage and OtherError. -/
inductive RLError
  | UnexpectedMessage
  | BadMessage
  | OtherError
deriving DecidableEq, Repr

/-- OpenStandardMiningChannel (mining-sv2 message, fields modelled from
the spec: a channel-open request carrying a request id and miner data). -/
structure OpenStandardMiningChannelMsg where
  request_id : Nat
  user_identity : Nat
  max_target : Nat
deriving DecidableEq, Repr

/-- OpenExtendedMiningChannel (mining-sv2 message, modelled from the
spec). -/
structure OpenExtendedMiningChannelMsg where
  request_id : Nat
  user_identity : Nat
  min_extranonce_size : Nat
deriving DecidableEq, Repr

/-- UpdateChannel (mining-sv2 message, modelled from the spec). -/
structure UpdateChannelMsg where
  channel_id : Nat
  nominal_hash_rate : Nat
deriving DecidableEq, Repr

/-- SubmitSharesStandard from mining-sv2: the share submission, carrying
the channel and job identifiers the router translates. -/
structure SubmitSharesStandardMsg where
  channel_id : Nat
  sequence_number : Nat
  job_id : Nat
  nonce : Nat
  ntime : Nat
  version : Nat
deriving DecidableEq, Repr

/-- SubmitSharesExtended (mining-sv2 message, modelled from the spec). -/
structure SubmitSharesExtendedMsg where
  channel_id : Nat
  sequence_number : Nat
  job_id : Nat
deriving DecidableEq, Repr

/-- SetCustomMiningJob (mining-sv2 message, modelled from the spec). -/
structure SetCustomMiningJobMsg where
  channel_id : Nat
  request_id : Nat
deriving DecidableEq, Repr

/-- SubmitSharesError (mining-sv2 message, modelled from the spec): the
rejection sent back to the submitting downstream. -/
structure SubmitSharesErrorMsg where
  channel_id : Nat
  sequence_number : Nat
  error_code : Nat
deriving DecidableEq, Repr

/-- The Mining message sum from parsers.rs (modelled from the spec),
restricted to the variants the downstream router distinguishes; every
other decoded variant lands in OtherVariant, which the downstream parser
rejects in its catch-all arm. -/
inductive MiningMsg
  | OpenStandardMiningChannel (m : OpenStandardMiningChannelMsg)
  | OpenExtendedMiningChannel (m : OpenExtendedMiningChannelMsg)
  | UpdateChannel (m : UpdateChannelMsg)
  | SubmitSharesStandard (m : SubmitSharesStandardMsg)
  | SubmitSharesExtended (m : SubmitSharesExtendedMsg)
  | SetCustomMiningJob (m : SetCustomMiningJobMsg)
  | SubmitSharesError (m : SubmitSharesErrorMsg)
  | OtherVariant
deriving DecidableEq, Repr

/-- SendTo_ from handlers/mod.rs (modelled from the spec): the routing
directive the router returns. -/
inductive SendTo (Up : Type)
  | RelaySameMessage (p : Up)
  | RelayNewMessage (p : Up) (m : MiningMsg)
  | Respond (m : MiningMsg)
  | Multiple (l : List (SendTo Up))
  | NoneDirective (m : Option MiningMsg)

/-- The outcome of a handler or of the router: a directive, a returned
error, or a Rust panic (unwrap on None or an explicit todo placeholder). -/
inductive HOut (Up : Type)
  | ok (s : SendTo Up)
  | err (e : RLError)
  | panics

/-- The outcome of the proxy routing hook
on_open_standard_channel, which may rewrite the message and selects the
upstream peer (routing-logic internals modelled from the spec). -/
inductive RouteOut (Up : Type)
  | ok (u : Up) (m : OpenStandardMiningChannelMsg)
  | err (e : RLError)
  | panics

/-- MiningRoutingLogic from routing_logic.rs (modelled from the spec): no
routing, or a proxy hook consulted when a standard channel is opened. -/
inductive MiningRoutingLogic (Up : Type)
  | noRouting
  | proxy (onOpenStandardChannel : OpenStandardMiningChannelMsg → RouteOut Up)

/-- The routing step the dispatcher performs before matching the channel
type of an OpenStandardMiningChannel: no routing leaves the message
unchanged with no upstream; the proxy hook may fail, and its failure
aborts the dispatch. -/
def routeOpenStandard {Up : Type} (rl : MiningRoutingLogic Up)
    (m : OpenStandardMiningChannelMsg) :
    HOut Up ⊕ (Option Up × OpenStandardMiningChannelMsg) :=
  match rl with
  | .noRouting => .inr (none, m)
  | .proxy f =>
    match f m with
    | .ok u m2 => .inr (some u, m2)
    | .err e => .inl (.err e)
    | .panics => .inl .panics

/-- The handler methods of ParseDownstreamMiningMessages, one per
downstream message type, as implemented by a concrete downstream
node. -/
structure DownstreamHandlers (Up : Type) where
  handle_open_standard_mining_channel :
    OpenStandardMiningChannelMsg → Option Up → HOut Up
  handle_open_extended_mining_channel : OpenExtendedMiningChannelMsg → HOut Up
  handle_update_channel : UpdateChannelMsg → HOut Up
  handle_submit_shares_standard : SubmitSharesStandardMsg → HOut Up
  handle_submit_shares_extended : SubmitSharesExtendedMsg → HOut Up
  handle_set_custom_mining_job : SetCustomMiningJobMsg → HOut Up

/-- ParseDownstreamMiningMessages::handle_message_mining from
handlers/mining.rs: decode, consult the routing logic for channel opens,
then dispatch by channel type and work-selection flag exactly as the
source match does; inadmissible combinations return UnexpectedMessage
without calling a handler. -/
def handle_message_mining {Up : Type} (H : DownstreamHandlers Up)
    (channel_type : SupportedChannelTypes) (is_work_selection_enabled : Bool)
    (routing_logic : MiningRoutingLogic Up)
    (parsed : Except RLError MiningMsg) : HOut Up :=
  match parsed with
  | .error e => .err e
  | .ok (.OpenStandardMiningChannel m) =>
    match routeOpenStandard routing_logic m with
    | .inl out => out
    | .inr (upstream, m2) =>
      match channel_type with
      | .Standard => H.handle_open_standard_mining_channel m2 upstream
      | .Extended => .err .UnexpectedMessage
      | .Group => H.handle_open_standard_mining_channel m2 upstream
      | .GroupAndExtended => H.handle_open_standard_mining_channel m2 upstream
  | .ok (.OpenExtendedMiningChannel m) =>
    match channel_type with
    | .Standard => .err .UnexpectedMessage
    | .Extended => H.handle_open_extended_mining_channel m
    | .Group => .err .UnexpectedMessage
    | .GroupAndExtended => H.handle_open_extended_mining_channel m
  | .ok (.UpdateChannel m) =>
    match channel_type with
    | .Standard => H.handle_update_channel m
    | .Extended => H.handle_update_channel m
    | .Group => H.handle_update_channel m
    | .GroupAndExtended => H.handle_update_channel m
  | .ok (.SubmitSharesStandard m) =>
    match channel_type with
    | .Standard => H.handle_submit_shares_standard m
    | .Extended => .err .UnexpectedMessage
    | .Group => H.handle_submit_shares_standard m
    | .GroupAndExtended => H.handle_submit_shares_standard m
  | .ok (.SubmitSharesExtended m) =>
    match channel_type with
    | .Standard => .err .UnexpectedMessage
    | .Extended => H.handle_submit_shares_extended m
    | .Group => .err .UnexpectedMessage
    | .GroupAndExtended => H.handle_submit_shares_extended m
  | .ok (.SetCustomMiningJob m) =>
    match channel_type, is_work_selection_enabled with
    | .Extended, true => H.handle_set_custom_mining_job m
    | .Group, true => H.handle_set_custom_mining_job m
    | .GroupAndExtended, true => H.handle_set_custom_mining_job m
    | _, _ => .err .UnexpectedMessage
  | .ok (.SubmitSharesError _) => .err .UnexpectedMessage
  | .ok .OtherVariant => .err .UnexpectedMessage

/-- Table 1 of the specification as a decidable predicate: admissibility
of a downstream message for a channel type and work-selection flag.
This definition follows the words of the spec, to be compared with the
dispatcher translated from the source. -/
def table1Admissible (msg : MiningMsg) (channel_type : SupportedChannelTypes)
    (work_selection : Bool) : Bool :=
  match msg, channel_type with
  | .OpenStandardMiningChannel _, .Standard => true
  | .OpenStandardMiningChannel _, .Extended => false
  | .OpenStandardMiningChannel _, .Group => true
  | .OpenStandardMiningChannel _, .GroupAndExtended => true
  | .OpenExtendedMiningChannel _, .Standard => false
  | .OpenExtendedMiningChannel _, .Extended => true
  | .OpenExtendedMiningChannel _, .Group => false
  | .OpenExtendedMiningChannel _, .GroupAndExtended => true
  | .UpdateChannel _, _ => true
  | .SubmitSharesStandard _, .Standard => true
  | .SubmitSharesStandard _, .Extended => false
  | .SubmitSharesStandard _, .Group => true
  | .SubmitSharesStandard _, .GroupAndExtended => true
  | .SubmitSharesExtended _, .Standard => false
  | .SubmitSharesExtended _, .Extended => true
  | .SubmitSharesExtended _, .Group => false
  | .SubmitSharesExtended _, .GroupAndExtended => true
  | .SetCustomMiningJob _, .Standard => false
  | .SetCustomMiningJob _, _ => work_selection
  | _, _ => false

/-- Association-list lookup standing for the HashMap get of the
source. -/
def lookupA {α : Type} : List (Nat × α) → Nat → Option α
  | [], _ => none
  | (k, v) :: rest, key => if k = key then some v else lookupA rest key

/-- SendSharesResponse from job_dispatcher.rs (modelled from the spec):
the dispatcher either validates and rewrites a share or rejects it. -/
inductive SendSharesResponse
  | Valid (m : SubmitSharesStandardMsg)
  | Invalid (m : SubmitSharesErrorMsg)

/-- GroupChannelJobDispatcher (modelled from the spec): the collaborator
that validates a share and rewrites its identifiers into the upstream's
view. -/
structure GroupChannelJobDispatcher where
  on_submit_shares : SubmitSharesStandardMsg → SendSharesResponse

/-- JobDispatcher from upstream_mining.rs (modelled from the spec): the
per-group dispatcher attached to an upstream. -/
inductive JobDispatcher
  | Group (d : GroupChannelJobDispatcher)
  | NoDispatcher

/-- UpstreamMiningNode from upstream_mining.rs (modelled from the spec):
an upstream peer with its group-indexed job dispatchers; id identifies
the shared reference. -/
structure UpstreamMiningNode where
  id : Nat
  channel_id_to_job_dispatcher : List (Nat × JobDispatcher)

/-- CommonDownstreamData from common_properties.rs (modelled from the
spec): the pairing data agreed in the SetupConnection exchange. -/
structure CommonDownstreamData where
  setup_flags : Nat
deriving DecidableEq, Repr

/-- DownstreamChannel from common_properties.rs (modelled from the
spec): a channel with its group. -/
structure DownstreamChannel where
  channel_id : Nat
  group_id : Nat
deriving DecidableEq, Repr

/-- DownstreamMiningNodeStatus from downstream_mining.rs. -/
inductive DownstreamMiningNodeStatus
  | Initializing
  | Paired (data : CommonDownstreamData) (channels : List (Nat × List DownstreamChannel))

/-- DownstreamMiningNode from downstream_mining.rs, restricted to the
routing state (the async channel endpoints are I/O edges outside the
core). -/
structure DownstreamMiningNode where
  status : DownstreamMiningNodeStatus
  channel_id_to_group_id : List (Nat × Nat)
  prev_job_id : Option Nat

/-- The mining proxy's global job-to-upstream index consulted through
crate::upstream_from_job_id (modelled from the spec: the job registry
maps every announced job id to the upstream peer that served it). -/
structure ProxyGlobal where
  job_id_to_upstream : List (Nat × UpstreamMiningNode)

/-- crate::upstream_from_job_id (modelled from the spec). -/
def upstream_from_job_id (ctx : ProxyGlobal) (job_id : Nat) : Option UpstreamMiningNode :=
  lookupA ctx.job_id_to_upstream job_id

/-- DownstreamMiningNode::get_channel_type from downstream_mining.rs:
the proxy's downstream connections are group channels. -/
def DownstreamMiningNode.get_channel_type (_ : DownstreamMiningNode) :
    SupportedChannelTypes := .Group

/-- DownstreamMiningNode::is_work_selection_enabled from
downstream_mining.rs: always false. -/
def DownstreamMiningNode.is_work_selection_enabled (_ : DownstreamMiningNode) : Bool :=
  false

/-- DownstreamMiningNode::handle_submit_shares_standard from
downstream_mining.rs: look up the group of the submitting channel, the
upstream serving the job, and that upstream's group dispatcher; a valid
share is relayed rewritten to that upstream, an invalid one is answered
with SubmitSharesError.  Every missing lookup is a todo placeholder in
the source, hence a panic. -/
def DownstreamMiningNode.handle_submit_shares_standard
    (self : DownstreamMiningNode) (ctx : ProxyGlobal)
    (m : SubmitSharesStandardMsg) : HOut UpstreamMiningNode :=
  match lookupA self.channel_id_to_group_id m.channel_id with
  | some group_id =>
    match upstream_from_job_id ctx m.job_id with
    | some remote =>
      match lookupA remote.channel_id_to_job_dispatcher group_id with
      | some (.Group dispatcher) =>
        match dispatcher.on_submit_shares m with
        | .Valid m2 => .ok (.RelayNewMessage remote (.SubmitSharesStandard m2))
        | .Invalid m2 => .ok (.Respond (.SubmitSharesError m2))
      | some .NoDispatcher => .panics
      | none => .panics
    | none => .panics
  | none => .panics

/-- The handler suite of DownstreamMiningNode from downstream_mining.rs:
opening a standard channel relays the same message to the routed
upstream (unwrapping the option, a panic when absent); the extended,
update-channel and custom-job handlers are todo placeholders. -/
def dmnHandlers (self : DownstreamMiningNode) (ctx : ProxyGlobal) :
    DownstreamHandlers UpstreamMiningNode where
  handle_open_standard_mining_channel := fun _ up =>
    match up with
    | some u => .ok (.RelaySameMessage u)
    | none => .panics
  handle_open_extended_mining_channel := fun _ => .panics
  handle_update_channel := fun _ => .panics
  handle_submit_shares_standard := fun m =>
    self.handle_submit_shares_standard ctx m
  handle_submit_shares_extended := fun _ => .panics
  handle_set_custom_mining_job := fun _ => .panics

/-- handle_message_mining as invoked on a DownstreamMiningNode: channel
type, work-selection flag and handlers all come from the node. -/
def dmnHandleMessageMining (self : DownstreamMiningNode) (ctx : ProxyGlobal)
    (routing_logic : MiningRoutingLogic UpstreamMiningNode)
    (parsed : Except RLError MiningMsg) : HOut UpstreamMiningNode :=
  handle_message_mining (dmnHandlers self ctx) self.get_channel_type
    self.is_work_selection_enabled routing_logic parsed

/-- In-order encryption of a list of plaintexts, returning the final
transport state and the ciphertexts. -/
def writeSeq (tm : TransportMode) : List Bytes → Except NoiseError (TransportMode × List Bytes)
  | [] => .ok (tm, [])
  | m :: ms =>
    match tm.write m with
    | .error e => .error e
    | .ok (tm2, c) =>
      match writeSeq tm2 ms with
      | .error e => .error e
      | .ok (tm3, cs) => .ok (tm3, c :: cs)

/-- In-order decryption of a list of ciphertexts, returning the final
transport state and the plaintexts. -/
def readSeq (tm : TransportMode) : List Bytes → Except NoiseError (TransportMode × List Bytes)
  | [] => .ok (tm, [])
  | c :: cs =>
    match tm.read c with
    | .error e => .error e
    | .ok (tm2, m) =>
      match readSeq tm2 cs with
      | .error e => .error e
      | .ok (tm3, ms) => .ok (tm3, m :: ms)

/-- A concrete certificate for the example handshake: authority keypair
7, responder static key 5, valid from 100 for 3600 seconds. -/
def exCert : SignatureNoiseMessage := authorityNewCert 7 7 (5 % KEY_MOD) 100 3600

/-- A concrete fresh responder with ephemeral key 3 and static key 5. -/
def exResponder : Responder :=
  { stage := 0, e_priv := 3, s_priv := 5, signature_noise_message := exCert.serialize }

/-- A concrete fresh initiator with ephemeral key 2, configured with
authority public key 7, verifying at instant 200. -/
def exInitiator : Initiator :=
  { stage := 0, e_priv := 2, authority_public_key := 7, now := 200 }

/-- A trivial concrete handler suite over Nat-labelled upstreams. -/
def exHandlers : DownstreamHandlers Nat where
  handle_open_standard_mining_channel := fun _ _ => .ok (.NoneDirective none)
  handle_open_extended_mining_channel := fun _ => .ok (.NoneDirective none)
  handle_update_channel := fun _ => .ok (.NoneDirective none)
  handle_submit_shares_standard := fun _ => .ok (.NoneDirective none)
  handle_submit_shares_extended := fun _ => .ok (.NoneDirective none)
  handle_set_custom_mining_job := fun _ => .ok (.NoneDirective none)

/-- A concrete dispatcher that rewrites the job id into the upstream's
view. -/
def exDispatcher : GroupChannelJobDispatcher :=
  ⟨fun m => .Valid { m with job_id := m.job_id + 100 }⟩

/-- A concrete dispatcher that rejects every share. -/
def exDispatcherInvalid : GroupChannelJobDispatcher :=
  ⟨fun m => .Invalid ⟨m.channel_id, m.sequence_number, 42⟩⟩

/-- A concrete upstream peer with a group dispatcher for group 3. -/
def exUpstream : UpstreamMiningNode := ⟨1, [(3, .Group exDispatcher)]⟩

/-- A concrete upstream peer whose group-3 dispatcher rejects shares. -/
def exUpstreamInvalid : UpstreamMiningNode := ⟨2, [(3, .Group exDispatcherInvalid)]⟩

/-- A concrete proxy-global registry: job 11 was announced by
exUpstream, job 12 by exUpstreamInvalid. -/
def exCtx : ProxyGlobal := ⟨[(11, exUpstream), (12, exUpstreamInvalid)]⟩

/-- A concrete paired downstream node owning channel 7 in group 3. -/
def exNode : DownstreamMiningNode :=
  ⟨.Paired ⟨0⟩ [(3, [⟨7, 3⟩])], [(7, 3)], none⟩

/-- A concrete share on channel 7 against job 11. -/
def exShare : SubmitSharesStandardMsg := ⟨7, 0, 11, 1, 2, 3⟩

/-- A concrete initiator that has completed its handshake (stage 2). -/
def exDoneInitiator : Initiator :=
  { stage := 2, e_priv := 2, authority_public_key := 7, now := 200 }

/-- A concrete responder that has completed its handshake (stage 2). -/
def exDoneResponder : Responder :=
  { stage := 2, e_priv := 3, s_priv := 5, signature_noise_message := [] }

/-- A concrete fresh responder whose serialized signature noise message
is 76 zero bytes (the right length, whatever its content). -/
def exResponder76 : Responder :=
  { stage := 0, e_priv := 3, s_priv := 5,
    signature_noise_message := List.replicate 76 0 }

/-- A concrete fresh transport state. -/
def exTm : TransportMode := ⟨1, 2, 0, 0⟩

/-- A concrete transport state whose send nonce is about to wrap. -/
def exTmFull : TransportMode := ⟨1, 2, U64_MAX, 0⟩

theorem encodeKeyAux_length (n k : Nat) : (encodeKeyAux n k).length = n := by
  induction n generalizing k with
  | zero => rfl
  | succ n ih => simp [encodeKeyAux, ih]

theorem encodeKey_length (k : Nat) : (encodeKey k).length = SNOW_PSKLEN := by
  simp [encodeKey, SNOW_PSKLEN, encodeKeyAux_length]

theorem decode_encodeKeyAux (n k : Nat) :
    decodeKey (encodeKeyAux n k) = k % 256 ^ n := by
  induction n generalizing k with
  | zero => simp [encodeKeyAux, decodeKey, Nat.mod_one]
  | succ n ih =>
    simp only [encodeKeyAux, decodeKey, List.foldr_cons] at *
    rw [ih (k / 256)]
    rw [show (256 : Nat) ^ (n + 1) = 256 * 256 ^ n by ring]
    rw [Nat.mod_mul]

theorem decode_encodeKey (k : Nat) : decodeKey (encodeKey k) = k % KEY_MOD := by
  simp [encodeKey, KEY_MOD, decode_encodeKeyAux]

theorem maskBytes_length (k n i : Nat) (xs : List Nat) :
    (maskBytes k n i xs).length = xs.length := by
  induction xs generalizing i with
  | nil => rfl
  | cons x xs ih => simp [maskBytes, ih]

theorem maskBytes_involutive (k n i : Nat) (xs : List Nat) :
    maskBytes k n i (maskBytes k n i xs) = xs := by
  induction xs generalizing i with
  | nil => rfl
  | cons x xs ih => simp [maskBytes, ih, Nat.xor_cancel_right]

theorem aeadTag_length (k n : Nat) (c : List Nat) :
    (aeadTag k n c).length = SNOW_TAGLEN := by
  simp [aeadTag]

theorem aeadEncrypt_length (k n : Nat) (m : Bytes) :
    (aeadEncrypt k n m).length = m.length + SNOW_TAGLEN := by
  simp [aeadEncrypt, maskBytes_length, aeadTag_length]

theorem aeadDecrypt_encrypt (k n : Nat) (m : Bytes) :
    aeadDecrypt k n (aeadEncrypt k n m) = some m := by
  have hlen : (aeadEncrypt k n m).length = m.length + SNOW_TAGLEN :=
    aeadEncrypt_length k n m
  have hmask : (maskBytes k n 0 m).length = m.length := maskBytes_length k n 0 m
  unfold aeadDecrypt
  rw [hlen]
  rw [if_neg (by omega)]
  have hsub : m.length + SNOW_TAGLEN - SNOW_TAGLEN = m.length := by omega
  rw [hsub]
  unfold aeadEncrypt
  rw [List.take_left' hmask, List.drop_left' hmask]
  rw [if_pos rfl, maskBytes_involutive]

theorem dh_mod_right (a b : Nat) : dh a (b % KEY_MOD) = dh a b := by
  simp [dh, Nat.mul_mod]

theorem dh_comm (a b : Nat) : dh a b = dh b a := by
  simp [dh, Nat.mul_comm]

theorem write_then_read (tmA tmB : TransportMode) (m : Bytes)
    (hk : tmA.sendKey = tmB.recvKey) (hn : tmA.sendNonce = tmB.recvNonce)
    (hnn : tmA.sendNonce < U64_MAX)
    (hm : m.length + SNOW_TAGLEN ≤ MAX_MESSAGE_SIZE) :
    TransportMode.write tmA m =
      .ok ({ tmA with sendNonce := tmA.sendNonce + 1 },
           aeadEncrypt tmA.sendKey tmA.sendNonce m) ∧
    TransportMode.read tmB (aeadEncrypt tmA.sendKey tmA.sendNonce m) =
      .ok ({ tmB with recvNonce := tmB.recvNonce + 1 }, m) := by
  have hclen : (aeadEncrypt tmA.sendKey tmA.sendNonce m).length =
      m.length + SNOW_TAGLEN := aeadEncrypt_length _ _ _
  constructor
  · unfold TransportMode.write
    rw [if_neg (by omega), if_neg (by omega)]
  · unfold TransportMode.read
    rw [if_neg (by omega), if_neg (by omega), if_neg (by
      simp only [hclen, SNOW_TAGLEN]
      omega)]
    rw [← hk, ← hn, aeadDecrypt_encrypt]

theorem seq_roundtrip (ms : List Bytes) : ∀ (tmA tmB : TransportMode),
    tmA.sendKey = tmB.recvKey → tmA.sendNonce = tmB.recvNonce →
    tmA.sendNonce + ms.length < 2 ^ 64 →
    (∀ m ∈ ms, m.length + SNOW_TAGLEN ≤ MAX_MESSAGE_SIZE) →
    ∃ tmA2 cs tmB2,
      writeSeq tmA ms = .ok (tmA2, cs) ∧ readSeq tmB cs = .ok (tmB2, ms) := by
  induction ms with
  | nil =>
    intro tmA tmB _ _ _ _
    exact ⟨tmA, [], tmB, rfl, rfl⟩
  | cons m ms ih =>
    intro tmA tmB hk hn hcap hms
    have hnn : tmA.sendNonce < U64_MAX := by
      simp only [List.length_cons] at hcap
      simp only [U64_MAX]
      omega
    obtain ⟨hw, hr⟩ := write_then_read tmA tmB m hk hn hnn
      (hms m (List.mem_cons_self m ms))
    obtain ⟨tmA2, cs, tmB2, hws, hrs⟩ :=
      ih { tmA with sendNonce := tmA.sendNonce + 1 }
         { tmB with recvNonce := tmB.recvNonce + 1 }
         hk (by simp [hn])
         (by simp only [List.length_cons] at hcap; simpa using by omega)
         (fun x hx => hms x (List.mem_cons_of_mem m hx))
    refine ⟨tmA2, aeadEncrypt tmA.sendKey tmA.sendNonce m :: cs, tmB2, ?_, ?_⟩
    · simp only [writeSeq, hw, hws]
    · simp only [readSeq, hr, hrs]


theorem initiator_step_stage0 (i : Initiator) (msg : Option Bytes) (h : i.stage = 0) :
    Initiator.step i msg =
      ({ i with stage := i.stage + 1 }, .ok (.ExpectReply (encodeKey i.e_priv))) := by
  simp only [Initiator.step, h]

theorem initiator_step_none_err (i : Initiator) (h : i.stage = 1) :
    Initiator.step i none = (i, .error .UnexpectedMessage) := by
  simp only [Initiator.step, h]

theorem initiator_step_stage1 (i : Initiator) (m : Bytes) (h : i.stage = 1)
    (hlen : m.length = BUFFER_LEN) :
    Initiator.step i (some m) = initiatorReadFlight i m := by
  simp only [Initiator.step, h]
  rw [if_pos hlen]

theorem initiator_step_late (i : Initiator) (msg : Option Bytes) (h : 2 ≤ i.stage) :
    Initiator.step i msg = (i, .error .ProtocolMisuse) := by
  obtain ⟨n, hn⟩ : ∃ n, i.stage = n + 2 := ⟨i.stage - 2, by omega⟩
  simp only [Initiator.step, hn]

theorem responder_step_late (r : Responder) (msg : Option Bytes) (h : 2 ≤ r.stage) :
    Responder.step r msg = (r, .error .ProtocolMisuse) := by
  obtain ⟨n, hn⟩ : ∃ n, r.stage = n + 2 := ⟨r.stage - 2, by omega⟩
  simp only [Responder.step, hn]

theorem encodeKey_take (k : Nat) : (encodeKey k).take SNOW_PSKLEN = encodeKey k := by
  rw [← encodeKey_length k]
  exact List.take_length _

theorem responderFlight_length (r : Responder) (ee es : Nat) :
    (responderFlight r ee es).length =
      SNOW_PSKLEN + SNOW_PSKLEN + SNOW_TAGLEN + SNOW_TAGLEN +
        r.signature_noise_message.length := by
  simp only [responderFlight, List.length_append, encodeKey_length, aeadEncrypt_length]
  omega

theorem responder_step_on_e (r : Responder) (x : Nat) (h : r.stage = 0)
    (hfit : ¬ (BUFFER_LEN <
      (responderFlight r (dh r.e_priv x) (dh r.s_priv x)).length)) :
    Responder.step r (some (encodeKey x)) =
      ({ r with stage := r.stage + 1,
                ee := some (dh r.e_priv x), es := some (dh r.s_priv x) },
       .ok (.NoMoreReply (responderFlight r (dh r.e_priv x) (dh r.s_priv x) ++
         List.replicate
           (BUFFER_LEN - (responderFlight r (dh r.e_priv x) (dh r.s_priv x)).length)
           0))) := by
  have hlen : ¬ ((encodeKey x).length < SNOW_PSKLEN) := by
    rw [encodeKey_length]
    omega
  simp only [Responder.step, h, if_neg hlen, encodeKey_take, decode_encodeKey,
    dh_mod_right, if_neg hfit]

theorem initiatorReadFlight_some (i : Initiator) (m rsB : Bytes)
    (h : aeadDecrypt (kdfS (dh i.e_priv (decodeKey (m.take SNOW_PSKLEN)))) 0
      ((m.drop SNOW_PSKLEN).take (SNOW_PSKLEN + SNOW_TAGLEN)) = some rsB) :
    initiatorReadFlight i m =
      initiatorCheckCert i m (dh i.e_priv (decodeKey (m.take SNOW_PSKLEN))) rsB := by
  unfold initiatorReadFlight
  rw [h]

theorem initiatorCheckCert_ok (i : Initiator) (m rsB : Bytes) (ee : Nat)
    (payload : Bytes) (snm : SignatureNoiseMessage)
    (h2 : aeadDecrypt (kdfP ee (dh i.e_priv (decodeKey rsB))) 0
      (m.drop (SNOW_PSKLEN + SNOW_PSKLEN + SNOW_TAGLEN)) = some payload)
    (h3 : SignatureNoiseMessage.tryFrom payload = some snm)
    (h4 : certificateValidate snm (decodeKey rsB) i.authority_public_key i.now =
      .ok ()) :
    initiatorCheckCert i m ee rsB =
      ({ i with stage := i.stage + 1, ee := some ee,
                es := some (dh i.e_priv (decodeKey rsB)) }, .ok .Done) := by
  unfold initiatorCheckCert
  rw [h2]
  dsimp only
  rw [h3]
  dsimp only
  rw [h4]

theorem initiatorCheckCert_noPayload (i : Initiator) (m rsB : Bytes) (ee : Nat)
    (h2 : aeadDecrypt (kdfP ee (dh i.e_priv (decodeKey rsB))) 0
      (m.drop (SNOW_PSKLEN + SNOW_PSKLEN + SNOW_TAGLEN)) = none) :
    initiatorCheckCert i m ee rsB = (i, .error .HandshakeCrypto) := by
  unfold initiatorCheckCert
  rw [h2]

theorem initiatorCheckCert_badParse (i : Initiator) (m rsB : Bytes) (ee : Nat)
    (payload : Bytes)
    (h2 : aeadDecrypt (kdfP ee (dh i.e_priv (decodeKey rsB))) 0
      (m.drop (SNOW_PSKLEN + SNOW_PSKLEN + SNOW_TAGLEN)) = some payload)
    (h3 : SignatureNoiseMessage.tryFrom payload = none) :
    initiatorCheckCert i m ee rsB = (i, .error .BadCertificate) := by
  unfold initiatorCheckCert
  rw [h2]
  dsimp only
  rw [h3]

theorem initiatorCheckCert_badCert (i : Initiator) (m rsB : Bytes) (ee : Nat)
    (payload : Bytes) (snm : SignatureNoiseMessage) (e : NoiseError)
    (h2 : aeadDecrypt (kdfP ee (dh i.e_priv (decodeKey rsB))) 0
      (m.drop (SNOW_PSKLEN + SNOW_PSKLEN + SNOW_TAGLEN)) = some payload)
    (h3 : SignatureNoiseMessage.tryFrom payload = some snm)
    (h4 : certificateValidate snm (decodeKey rsB) i.authority_public_key i.now =
      .error e) :
    initiatorCheckCert i m ee rsB = (i, .error e) := by
  unfold initiatorCheckCert
  rw [h2]
  dsimp only
  rw [h3]
  dsimp only
  rw [h4]

set_option maxHeartbeats 1000000 in
theorem runHandshake_pairs (i : Initiator) (r : Responder) (ti tr : TransportMode)
    (h : runHandshake i r = some (ti, tr)) :
    ∃ ee es,
      ti = ⟨transportKeyIR ee es, transportKeyRI ee es, 0, 0⟩ ∧
      tr = ⟨transportKeyRI ee es, transportKeyIR ee es, 0, 0⟩ := by
  rcases hi : i.stage with _ | si
  case succ =>
    rcases si with _ | si2
    · rw [runHandshake, initiator_step_none_err i hi] at h
      simp at h
    · rw [runHandshake, initiator_step_late i none (by omega)] at h
      simp at h
  case zero =>
  rw [runHandshake, initiator_step_stage0 i none hi] at h
  dsimp only at h
  rw [hi] at h
  simp only [Nat.zero_add] at h
  rcases hr : r.stage with _ | sr
  case succ =>
    rcases sr with _ | sr2
    · simp only [Responder.step, hr] at h
      simp at h
    · rw [responder_step_late r _ (by omega)] at h
      simp at h
  case zero =>
  by_cases hfit : BUFFER_LEN <
      (responderFlight r (dh r.e_priv i.e_priv) (dh r.s_priv i.e_priv)).length
  · have hlen : ¬ ((encodeKey i.e_priv).length < SNOW_PSKLEN) := by
      rw [encodeKey_length]; omega
    simp only [Responder.step, hr, if_neg hlen, encodeKey_take, decode_encodeKey,
      dh_mod_right, if_pos hfit] at h
    simp at h
  · rw [responder_step_on_e r i.e_priv hr hfit] at h
    dsimp only at h
    set E := dh r.e_priv i.e_priv with hEdef
    set S := dh r.s_priv i.e_priv with hSdef
    set F := responderFlight r E S with hFdef
    set pad := List.replicate (BUFFER_LEN - F.length) 0 with hpaddef
    have hFsplit : F = encodeKey r.e_priv ++
        (aeadEncrypt (kdfS E) 0 (encodeKey r.s_priv) ++
         aeadEncrypt (kdfP E S) 0 r.signature_noise_message) := rfl
    have hm2 : (F ++ pad).length = BUFFER_LEN := by
      simp only [List.length_append, hpaddef, List.length_replicate]
      omega
    have htake : (F ++ pad).take SNOW_PSKLEN = encodeKey r.e_priv := by
      rw [hFsplit, List.append_assoc]
      exact List.take_left' (encodeKey_length _)
    have hdrop : (F ++ pad).drop SNOW_PSKLEN =
        (aeadEncrypt (kdfS E) 0 (encodeKey r.s_priv) ++
         aeadEncrypt (kdfP E S) 0 r.signature_noise_message) ++ pad := by
      rw [hFsplit, List.append_assoc]
      exact List.drop_left' (encodeKey_length _)
    have hy48 : ((F ++ pad).drop SNOW_PSKLEN).take (SNOW_PSKLEN + SNOW_TAGLEN) =
        aeadEncrypt (kdfS E) 0 (encodeKey r.s_priv) := by
      rw [hdrop, List.append_assoc]
      refine List.take_left' ?_
      rw [aeadEncrypt_length, encodeKey_length]
    have hz : (F ++ pad).drop (SNOW_PSKLEN + SNOW_PSKLEN + SNOW_TAGLEN) =
        aeadEncrypt (kdfP E S) 0 r.signature_noise_message ++ pad := by
      rw [hFsplit, ← List.append_assoc, List.append_assoc]
      refine List.drop_left' ?_
      rw [List.length_append, aeadEncrypt_length, encodeKey_length, encodeKey_length]
      omega
    rw [initiator_step_stage1
      { stage := 1, e_priv := i.e_priv, authority_public_key := i.authority_public_key,
        now := i.now, ee := i.ee, es := i.es } (F ++ pad) rfl hm2] at h
    have hE2 : dh i.e_priv (decodeKey ((F ++ pad).take SNOW_PSKLEN)) = E := by
      rw [htake, decode_encodeKey, dh_mod_right, hEdef, dh_comm]
    have hS2 : dh i.e_priv (decodeKey (encodeKey r.s_priv)) = S := by
      rw [decode_encodeKey, dh_mod_right, hSdef, dh_comm]
    have hdec1 : aeadDecrypt (kdfS (dh i.e_priv (decodeKey ((F ++ pad).take SNOW_PSKLEN)))) 0
        (((F ++ pad).drop SNOW_PSKLEN).take (SNOW_PSKLEN + SNOW_TAGLEN)) =
        some (encodeKey r.s_priv) := by
      rw [hE2, hy48, aeadDecrypt_encrypt]
    rw [initiatorReadFlight_some
      { stage := 1, e_priv := i.e_priv, authority_public_key := i.authority_public_key,
        now := i.now, ee := i.ee, es := i.es } (F ++ pad) (encodeKey r.s_priv) hdec1] at h
    dsimp only at h
    rw [hE2] at h
    rcases hp : aeadDecrypt (kdfP E S) 0
        (aeadEncrypt (kdfP E S) 0 r.signature_noise_message ++ pad) with _ | payload
    · rw [initiatorCheckCert_noPayload
        { stage := 1, e_priv := i.e_priv, authority_public_key := i.authority_public_key,
          now := i.now, ee := i.ee, es := i.es } (F ++ pad) (encodeKey r.s_priv) E
        (by rw [hS2, hz]; exact hp)] at h
      simp at h
    · rcases htf : SignatureNoiseMessage.tryFrom payload with _ | snm2
      · rw [initiatorCheckCert_badParse
          { stage := 1, e_priv := i.e_priv, authority_public_key := i.authority_public_key,
            now := i.now, ee := i.ee, es := i.es } (F ++ pad) (encodeKey r.s_priv) E payload
          (by rw [hS2, hz]; exact hp) htf] at h
        simp at h
      · rcases hv : certificateValidate snm2 (decodeKey (encodeKey r.s_priv))
            i.authority_public_key i.now with e | u
        · rw [initiatorCheckCert_badCert
            { stage := 1, e_priv := i.e_priv, authority_public_key := i.authority_public_key,
              now := i.now, ee := i.ee, es := i.es } (F ++ pad) (encodeKey r.s_priv) E payload snm2 e
            (by rw [hS2, hz]; exact hp) htf hv] at h
          simp at h
        · rw [initiatorCheckCert_ok
            { stage := 1, e_priv := i.e_priv, authority_public_key := i.authority_public_key,
              now := i.now, ee := i.ee, es := i.es } (F ++ pad) (encodeKey r.s_priv) E payload snm2
            (by rw [hS2, hz]; exact hp) htf (by rw [hv])] at h
          rw [hS2] at h
          dsimp only [Initiator.intoTransportMode, Responder.intoTransportMode] at h
          simp only [Option.some.injEq, Prod.mk.injEq] at h
          exact ⟨E, S, h.1.symm, h.2.symm⟩

theorem initiator_step_badlen (i : Initiator) (m : Bytes) (h : i.stage = 1)
    (hlen : ¬ (m.length = BUFFER_LEN)) :
    Initiator.step i (some m) = (i, .error .HandshakeCrypto) := by
  simp only [Initiator.step, h]
  rw [if_neg hlen]

theorem responder_step_shortmsg (r : Responder) (m : Bytes) (h : r.stage = 0)
    (hlen : m.length < SNOW_PSKLEN) :
    Responder.step r (some m) = (r, .error .HandshakeCrypto) := by
  simp only [Responder.step, h, if_pos hlen]

theorem responder_step_oversize (r : Responder) (m : Bytes) (h : r.stage = 0)
    (hlen : ¬ (m.length < SNOW_PSKLEN))
    (hfit : BUFFER_LEN <
      (responderFlight r (dh r.e_priv (decodeKey (m.take SNOW_PSKLEN)))
        (dh r.s_priv (decodeKey (m.take SNOW_PSKLEN)))).length) :
    Responder.step r (some m) = (r, .error .HandshakeCrypto) := by
  simp only [Responder.step, h, if_neg hlen, if_pos hfit]

theorem responder_step_stage0_ok (r : Responder) (m : Bytes) (h : r.stage = 0)
    (hlen : ¬ (m.length < SNOW_PSKLEN))
    (hfit : ¬ (BUFFER_LEN <
      (responderFlight r (dh r.e_priv (decodeKey (m.take SNOW_PSKLEN)))
        (dh r.s_priv (decodeKey (m.take SNOW_PSKLEN)))).length)) :
    Responder.step r (some m) =
      ({ r with stage := r.stage + 1,
                ee := some (dh r.e_priv (decodeKey (m.take SNOW_PSKLEN))),
                es := some (dh r.s_priv (decodeKey (m.take SNOW_PSKLEN))) },
       .ok (.NoMoreReply
         (responderFlight r (dh r.e_priv (decodeKey (m.take SNOW_PSKLEN)))
            (dh r.s_priv (decodeKey (m.take SNOW_PSKLEN))) ++
          List.replicate (BUFFER_LEN -
            (responderFlight r (dh r.e_priv (decodeKey (m.take SNOW_PSKLEN)))
              (dh r.s_priv (decodeKey (m.take SNOW_PSKLEN)))).length) 0))) := by
  simp only [Responder.step, h, if_neg hlen, if_neg hfit]

theorem responder_step_done (r : Responder) (mr : Option Bytes) (h : r.stage = 1) :
    Responder.step r mr = ({ r with stage := r.stage + 1 }, .ok .Done) := by
  simp only [Responder.step, h]

theorem initiatorCheckCert_shape (i : Initiator) (m : Bytes) (ee : Nat) (rsB : Bytes) :
    (∃ e, initiatorCheckCert i m ee rsB = (i, .error e)) ∨
    ((initiatorCheckCert i m ee rsB).1.stage = i.stage + 1 ∧
      ∃ res, (initiatorCheckCert i m ee rsB).2 = .ok res) := by
  unfold initiatorCheckCert
  rcases h2 : aeadDecrypt (kdfP ee (dh i.e_priv (decodeKey rsB))) 0
      (m.drop (SNOW_PSKLEN + SNOW_PSKLEN + SNOW_TAGLEN)) with _ | payload
  · exact .inl ⟨.HandshakeCrypto, rfl⟩
  · dsimp only
    rcases h3 : SignatureNoiseMessage.tryFrom payload with _ | snm
    · exact .inl ⟨.BadCertificate, rfl⟩
    · dsimp only
      rcases h4 : certificateValidate snm (decodeKey rsB)
          i.authority_public_key i.now with e | u
      · exact .inl ⟨e, rfl⟩
      · exact .inr ⟨rfl, .Done, rfl⟩

theorem initiatorReadFlight_shape (i : Initiator) (m : Bytes) :
    (∃ e, initiatorReadFlight i m = (i, .error e)) ∨
    ((initiatorReadFlight i m).1.stage = i.stage + 1 ∧
      ∃ res, (initiatorReadFlight i m).2 = .ok res) := by
  unfold initiatorReadFlight
  rcases h1 : aeadDecrypt (kdfS (dh i.e_priv (decodeKey (m.take SNOW_PSKLEN)))) 0
      ((m.drop SNOW_PSKLEN).take (SNOW_PSKLEN + SNOW_TAGLEN)) with _ | rsB
  · exact .inl ⟨.HandshakeCrypto, rfl⟩
  · dsimp only
    exact initiatorCheckCert_shape i m _ rsB

theorem initiatorStep_shape (i : Initiator) (mi : Option Bytes) :
    (∃ e, Initiator.step i mi = (i, .error e)) ∨
    ((Initiator.step i mi).1.stage = i.stage + 1 ∧
      ∃ res, (Initiator.step i mi).2 = .ok res) := by
  rcases hi : i.stage with _ | si
  · rw [initiator_step_stage0 i mi hi]
    exact .inr ⟨by simp [hi], .ExpectReply (encodeKey i.e_priv), rfl⟩
  · rcases si with _ | n
    · rcases mi with _ | m
      · exact .inl ⟨.UnexpectedMessage, initiator_step_none_err i hi⟩
      · by_cases hlen : m.length = BUFFER_LEN
        · rw [initiator_step_stage1 i m hi hlen]
          have hsh := initiatorReadFlight_shape i m
          rw [hi] at hsh
          exact hsh
        · exact .inl ⟨.HandshakeCrypto, initiator_step_badlen i m hi hlen⟩
    · exact .inl ⟨.ProtocolMisuse, initiator_step_late i mi (by omega)⟩

theorem responderStep_shape (r : Responder) (mr : Option Bytes) :
    (∃ e, Responder.step r mr = (r, .error e)) ∨
    ((Responder.step r mr).1.stage = r.stage + 1 ∧
      ∃ res, (Responder.step r mr).2 = .ok res) := by
  rcases hr : r.stage with _ | sr
  · rcases mr with _ | m
    · exact .inl ⟨.UnexpectedMessage, by simp only [Responder.step, hr]⟩
    · by_cases hlen : m.length < SNOW_PSKLEN
      · exact .inl ⟨.HandshakeCrypto, responder_step_shortmsg r m hr hlen⟩
      · by_cases hfit : BUFFER_LEN <
          (responderFlight r (dh r.e_priv (decodeKey (m.take SNOW_PSKLEN)))
            (dh r.s_priv (decodeKey (m.take SNOW_PSKLEN)))).length
        · exact .inl ⟨.HandshakeCrypto, responder_step_oversize r m hr hlen hfit⟩
        · rw [responder_step_stage0_ok r m hr hlen hfit]
          exact .inr ⟨by simp [hr], _, rfl⟩
  · rcases sr with _ | n
    · rw [responder_step_done r mr hr]
      exact .inr ⟨by simp [hr], .Done, rfl⟩
    · exact .inl ⟨.ProtocolMisuse, responder_step_late r mr (by omega)⟩

/-- Claim C1: for every channel type, work-selection flag and downstream
mining message listed in Table 1, handle_message_mining dispatches the
message to its corresponding handler exactly when the
(message, channel_type, work_selection) cell is admissible - in
particular OpenStandardMiningChannel is rejected only on Extended,
OpenExtendedMiningChannel and SubmitSharesExtended are rejected on
Standard and Group, UpdateChannel is always accepted, and
SetCustomMiningJob is accepted only with work selection enabled on a
non-Standard channel - and every inadmissible combination returns
UnexpectedMessage for every handler suite, so no handler is invoked.
For OpenStandardMiningChannel the routing policy runs first and is
assumed to return an upstream selection rather than an error. -/
theorem handle_message_mining_matches_table1 {Up : Type}
    (H : DownstreamHandlers Up) (ct : SupportedChannelTypes) (ws : Bool)
    (rl : MiningRoutingLogic Up) :
    (∀ m u m2, routeOpenStandard rl m = .inr (u, m2) →
      handle_message_mining H ct ws rl (.ok (.OpenStandardMiningChannel m)) =
        if table1Admissible (.OpenStandardMiningChannel m) ct ws
        then H.handle_open_standard_mining_channel m2 u
        else .err .UnexpectedMessage) ∧
    (∀ m, handle_message_mining H ct ws rl (.ok (.OpenExtendedMiningChannel m)) =
        if table1Admissible (.OpenExtendedMiningChannel m) ct ws
        then H.handle_open_extended_mining_channel m
        else .err .UnexpectedMessage) ∧
    (∀ m, handle_message_mining H ct ws rl (.ok (.UpdateChannel m)) =
        if table1Admissible (.UpdateChannel m) ct ws
        then H.handle_update_channel m
        else .err .UnexpectedMessage) ∧
    (∀ m, handle_message_mining H ct ws rl (.ok (.SubmitSharesStandard m)) =
        if table1Admissible (.SubmitSharesStandard m) ct ws
        then H.handle_submit_shares_standard m
        else .err .UnexpectedMessage) ∧
    (∀ m, handle_message_mining H ct ws rl (.ok (.SubmitSharesExtended m)) =
        if table1Admissible (.SubmitSharesExtended m) ct ws
        then H.handle_submit_shares_extended m
        else .err .UnexpectedMessage) ∧
    (∀ m, handle_message_mining H ct ws rl (.ok (.SetCustomMiningJob m)) =
        if table1Admissible (.SetCustomMiningJob m) ct ws
        then H.handle_set_custom_mining_job m
        else .err .UnexpectedMessage) := by
  refine ⟨?_, ?_, ?_, ?_, ?_, ?_⟩
  · intro m u m2 hroute
    simp only [handle_message_mining, hroute]
    cases ct <;> rfl
  · intro m
    cases ct <;> rfl
  · intro m
    cases ct <;> rfl
  · intro m
    cases ct <;> rfl
  · intro m
    cases ct <;> rfl
  · intro m
    cases ct <;> cases ws <;> rfl

/-- Witness for C1: on a Standard channel with no routing policy, a
concrete OpenStandardMiningChannel is dispatched per Table 1. -/
theorem handle_message_mining_matches_table1_witness :
    handle_message_mining exHandlers .Standard false .noRouting
        (.ok (.OpenStandardMiningChannel ⟨1, 2, 3⟩)) =
      if table1Admissible (.OpenStandardMiningChannel ⟨1, 2, 3⟩) .Standard false
      then exHandlers.handle_open_standard_mining_channel ⟨1, 2, 3⟩ none
      else .err .UnexpectedMessage :=
  (handle_message_mining_matches_table1 exHandlers .Standard false
    .noRouting).1 ⟨1, 2, 3⟩ none ⟨1, 2, 3⟩ rfl

/-- Claim C9: the proxy's DownstreamMiningNode reports channel type
Group and work selection disabled, so OpenExtendedMiningChannel,
SubmitSharesExtended and SetCustomMiningJob are always answered with
UnexpectedMessage and the corresponding todo handlers are never
reached. -/
theorem dmn_group_rejects_extended_and_custom (self : DownstreamMiningNode)
    (ctx : ProxyGlobal) (rl : MiningRoutingLogic UpstreamMiningNode)
    (m1 : OpenExtendedMiningChannelMsg) (m2 : SubmitSharesExtendedMsg)
    (m3 : SetCustomMiningJobMsg) :
    self.get_channel_type = .Group ∧
    self.is_work_selection_enabled = false ∧
    dmnHandleMessageMining self ctx rl (.ok (.OpenExtendedMiningChannel m1)) =
      .err .UnexpectedMessage ∧
    dmnHandleMessageMining self ctx rl (.ok (.SubmitSharesExtended m2)) =
      .err .UnexpectedMessage ∧
    dmnHandleMessageMining self ctx rl (.ok (.SetCustomMiningJob m3)) =
      .err .UnexpectedMessage :=
  ⟨rfl, rfl, rfl, rfl, rfl⟩

/-- Claim C2: when the submitting channel is registered, the job
resolves to an upstream peer and that peer has a Group dispatcher for
the channel's group, a Valid dispatcher verdict relays the rewritten
share to exactly that peer and an Invalid verdict answers the
downstream with SubmitSharesError. -/
theorem handle_submit_shares_standard_translates
    (self : DownstreamMiningNode) (ctx : ProxyGlobal)
    (m : SubmitSharesStandardMsg) (gid : Nat) (remote : UpstreamMiningNode)
    (d : GroupChannelJobDispatcher)
    (hg : lookupA self.channel_id_to_group_id m.channel_id = some gid)
    (hu : upstream_from_job_id ctx m.job_id = some remote)
    (hd : lookupA remote.channel_id_to_job_dispatcher gid = some (.Group d)) :
    (∀ m2, d.on_submit_shares m = .Valid m2 →
      self.handle_submit_shares_standard ctx m =
        .ok (.RelayNewMessage remote (.SubmitSharesStandard m2))) ∧
    (∀ e2, d.on_submit_shares m = .Invalid e2 →
      self.handle_submit_shares_standard ctx m =
        .ok (.Respond (.SubmitSharesError e2))) := by
  constructor <;> intro x hx <;>
    simp only [DownstreamMiningNode.handle_submit_shares_standard, hg, hu, hd, hx]

/-- Witness for C2: the concrete node, registry and share; the group
dispatcher rewrites job 11 to job 111 and the share is relayed to the
upstream that served job 11. -/
theorem handle_submit_shares_standard_translates_witness :
    exNode.handle_submit_shares_standard exCtx exShare =
      .ok (.RelayNewMessage exUpstream (.SubmitSharesStandard ⟨7, 0, 111, 1, 2, 3⟩)) :=
  (handle_submit_shares_standard_translates exNode exCtx exShare 3 exUpstream
    exDispatcher rfl rfl rfl).1 ⟨7, 0, 111, 1, 2, 3⟩ rfl

/-- Claim C7 (code bug evaluation): a share whose channel id is not in
channel_id_to_group_id, or whose job id resolves to no upstream, makes
handle_submit_shares_standard hit a todo placeholder and panic instead
of returning the UnknownChannel or UnknownJob error the specification
describes. -/
theorem handle_submit_shares_standard_missing_lookups_panic :
    exNode.handle_submit_shares_standard exCtx ⟨9, 0, 11, 1, 2, 3⟩ = .panics ∧
    exNode.handle_submit_shares_standard exCtx ⟨7, 0, 99, 1, 2, 3⟩ = .panics :=
  ⟨rfl, rfl⟩

/-- Claim C4: calling step on an Initiator or Responder whose handshake
is complete (stage at least 2) fails with ProtocolMisuse and leaves the
state unchanged, so a completed endpoint can never emit a further
handshake message. -/
theorem step_after_done_is_protocol_misuse (i : Initiator) (r : Responder)
    (mi mr : Option Bytes) :
    (2 ≤ i.stage → Initiator.step i mi = (i, .error .ProtocolMisuse)) ∧
    (2 ≤ r.stage → Responder.step r mr = (r, .error .ProtocolMisuse)) :=
  ⟨fun h => initiator_step_late i mi h, fun h => responder_step_late r mr h⟩

/-- Witness for C4: both completed endpoints reject a further step. -/
theorem step_after_done_is_protocol_misuse_witness :
    Initiator.step exDoneInitiator none =
      (exDoneInitiator, .error .ProtocolMisuse) ∧
    Responder.step exDoneResponder (some []) =
      (exDoneResponder, .error .ProtocolMisuse) :=
  ⟨(step_after_done_is_protocol_misuse exDoneInitiator exDoneResponder
      none (some [])).1 (by decide),
   (step_after_done_is_protocol_misuse exDoneInitiator exDoneResponder
      none (some [])).2 (by decide)⟩

/-- Claim C10: a failed handshake step leaves the stage counter
unchanged, and a successful one advances it by exactly one, for both the
Initiator and the Responder. -/
theorem step_stage_advances_only_on_success (i : Initiator) (r : Responder)
    (mi mr : Option Bytes) :
    ((∃ e, (Initiator.step i mi).2 = .error e) →
      (Initiator.step i mi).1.stage = i.stage) ∧
    ((∃ res, (Initiator.step i mi).2 = .ok res) →
      (Initiator.step i mi).1.stage = i.stage + 1) ∧
    ((∃ e, (Responder.step r mr).2 = .error e) →
      (Responder.step r mr).1.stage = r.stage) ∧
    ((∃ res, (Responder.step r mr).2 = .ok res) →
      (Responder.step r mr).1.stage = r.stage + 1) := by
  refine ⟨?_, ?_, ?_, ?_⟩
  · rintro ⟨e, he⟩
    rcases initiatorStep_shape i mi with ⟨e2, hs⟩ | ⟨_, res, hres⟩
    · rw [hs]
    · rw [hres] at he
      cases he
  · rintro ⟨res, hres⟩
    rcases initiatorStep_shape i mi with ⟨e2, hs⟩ | ⟨h1, _⟩
    · rw [hs] at hres
      cases hres
    · exact h1
  · rintro ⟨e, he⟩
    rcases responderStep_shape r mr with ⟨e2, hs⟩ | ⟨_, res, hres⟩
    · rw [hs]
    · rw [hres] at he
      cases he
  · rintro ⟨res, hres⟩
    rcases responderStep_shape r mr with ⟨e2, hs⟩ | ⟨h1, _⟩
    · rw [hs] at hres
      cases hres
    · exact h1

set_option maxRecDepth 4000 in
/-- Witness for C10: a completed initiator fails and keeps stage 2; a
fresh initiator succeeds and moves to stage 1; a completed responder
fails and keeps stage 2; a fresh responder succeeds and moves to
stage 1. -/
theorem step_stage_advances_only_on_success_witness :
    (Initiator.step exDoneInitiator none).1.stage = exDoneInitiator.stage ∧
    (Initiator.step exInitiator none).1.stage = exInitiator.stage + 1 ∧
    (Responder.step exDoneResponder none).1.stage = exDoneResponder.stage ∧
    (Responder.step exResponder76 (some (List.replicate 32 0))).1.stage =
      exResponder76.stage + 1 :=
  ⟨(step_stage_advances_only_on_success exDoneInitiator exDoneResponder
      none none).1 ⟨.ProtocolMisuse, rfl⟩,
   (step_stage_advances_only_on_success exInitiator exDoneResponder
      none none).2.1 ⟨.ExpectReply (encodeKey 2), rfl⟩,
   (step_stage_advances_only_on_success exDoneInitiator exDoneResponder
      none none).2.2.1 ⟨.ProtocolMisuse, rfl⟩,
   (step_stage_advances_only_on_success exDoneInitiator exResponder76
      none (some (List.replicate 32 0))).2.2.2
     ⟨.NoMoreReply (responderFlight exResponder76 0 0 ++
        List.replicate (BUFFER_LEN - (responderFlight exResponder76 0 0).length) 0),
      rfl⟩⟩

/-- Claim C6: transport-mode write fails with CipherExhausted when
advancing the send nonce would wrap, fails with TooLarge when the
plaintext plus tag exceeds the maximum frame size, and otherwise writes
exactly plaintext length plus TAG_LEN bytes and advances the send nonce
by one. -/
theorem transport_write_contract (tm : TransportMode) (m : Bytes) :
    (U64_MAX ≤ tm.sendNonce → tm.write m = .error .CipherExhausted) ∧
    (tm.sendNonce < U64_MAX → MAX_MESSAGE_SIZE < m.length + SNOW_TAGLEN →
      tm.write m = .error .TooLarge) ∧
    (tm.sendNonce < U64_MAX → m.length + SNOW_TAGLEN ≤ MAX_MESSAGE_SIZE →
      tm.write m = .ok ({ tm with sendNonce := tm.sendNonce + 1 },
        aeadEncrypt tm.sendKey tm.sendNonce m) ∧
      (aeadEncrypt tm.sendKey tm.sendNonce m).length = m.length + SNOW_TAGLEN) := by
  refine ⟨?_, ?_, ?_⟩
  · intro h
    unfold TransportMode.write
    rw [if_pos h]
  · intro h1 h2
    unfold TransportMode.write
    rw [if_neg (by omega), if_pos h2]
  · intro h1 h2
    refine ⟨?_, aeadEncrypt_length _ _ _⟩
    unfold TransportMode.write
    rw [if_neg (by omega), if_neg (by omega)]

/-- Witness for C6: a wrapped nonce is CipherExhausted, an oversized
plaintext is TooLarge, and a small write succeeds with the exact length
and the advanced nonce. -/
theorem transport_write_contract_witness :
    exTmFull.write [1] = .error .CipherExhausted ∧
    exTm.write (List.replicate 65520 0) = .error .TooLarge ∧
    (exTm.write [1, 2, 3] = .ok ({ exTm with sendNonce := 1 }, aeadEncrypt 1 0 [1, 2, 3]) ∧
     (aeadEncrypt 1 0 [1, 2, 3]).length = 3 + SNOW_TAGLEN) :=
  ⟨(transport_write_contract exTmFull [1]).1 (by decide),
   (transport_write_contract exTm (List.replicate 65520 0)).2.1 (by decide)
     (by rw [List.length_replicate]; decide),
   (transport_write_contract exTm [1, 2, 3]).2.2 (by decide) (by decide)⟩

/-- Claim C5: a successful stage-0 responder step on any input message
returns NoMoreReply bytes of length exactly
2 * PSK_LEN + 2 * TAG_LEN + 76 = 172, and the bytes written by
write_message fill the whole buffer, so the source's length assertion
holds whenever the step succeeds (the responder's pre-constructed
signature noise message has the serialized length 76). -/
theorem responder_second_flight_length (r : Responder) (m : Bytes)
    (st : Responder) (res : StepResult)
    (h0 : r.stage = 0)
    (h76 : r.signature_noise_message.length = SIGNATURE_MESSAGE_LEN)
    (hstep : Responder.step r (some m) = (st, .ok res)) :
    ∃ b, res = .NoMoreReply b ∧
      b.length = 2 * SNOW_PSKLEN + 2 * SNOW_TAGLEN + SIGNATURE_MESSAGE_LEN ∧
      b.length = 172 ∧
      b = responderFlight r (dh r.e_priv (decodeKey (m.take SNOW_PSKLEN)))
            (dh r.s_priv (decodeKey (m.take SNOW_PSKLEN))) ∧
      (responderFlight r (dh r.e_priv (decodeKey (m.take SNOW_PSKLEN)))
        (dh r.s_priv (decodeKey (m.take SNOW_PSKLEN)))).length = BUFFER_LEN := by
  have hflen : (responderFlight r (dh r.e_priv (decodeKey (m.take SNOW_PSKLEN)))
      (dh r.s_priv (decodeKey (m.take SNOW_PSKLEN)))).length = BUFFER_LEN := by
    rw [responderFlight_length, h76]
    rfl
  by_cases hlen : m.length < SNOW_PSKLEN
  · rw [responder_step_shortmsg r m h0 hlen] at hstep
    cases hstep
  · have hfit : ¬ (BUFFER_LEN <
        (responderFlight r (dh r.e_priv (decodeKey (m.take SNOW_PSKLEN)))
          (dh r.s_priv (decodeKey (m.take SNOW_PSKLEN)))).length) := by
      rw [hflen]
      omega
    rw [responder_step_stage0_ok r m h0 hlen hfit] at hstep
    have hres : res = .NoMoreReply
        (responderFlight r (dh r.e_priv (decodeKey (m.take SNOW_PSKLEN)))
          (dh r.s_priv (decodeKey (m.take SNOW_PSKLEN))) ++
         List.replicate (BUFFER_LEN -
           (responderFlight r (dh r.e_priv (decodeKey (m.take SNOW_PSKLEN)))
             (dh r.s_priv (decodeKey (m.take SNOW_PSKLEN)))).length) 0) := by
      have := congrArg Prod.snd hstep
      simp only at this
      exact (Except.ok.injEq _ _).mp this.symm
    have hpad : BUFFER_LEN -
        (responderFlight r (dh r.e_priv (decodeKey (m.take SNOW_PSKLEN)))
          (dh r.s_priv (decodeKey (m.take SNOW_PSKLEN)))).length = 0 := by
      rw [hflen]
      omega
    refine ⟨responderFlight r (dh r.e_priv (decodeKey (m.take SNOW_PSKLEN)))
      (dh r.s_priv (decodeKey (m.take SNOW_PSKLEN))), ?_, ?_, ?_, rfl, hflen⟩
    · rw [hres, hpad]
      simp
    · rw [hflen]
      rfl
    · rw [hflen]
      rfl

set_option maxRecDepth 4000 in
/-- Witness for C5: the concrete fresh responder with a 76-byte
signature noise message answers a 32-byte first flight with the full
172-byte second flight. -/
theorem responder_second_flight_length_witness :
    exResponder76.stage = 0 ∧
    exResponder76.signature_noise_message.length = SIGNATURE_MESSAGE_LEN ∧
    (∃ b, (StepResult.NoMoreReply (responderFlight exResponder76 0 0 ++
        List.replicate (BUFFER_LEN - (responderFlight exResponder76 0 0).length) 0)) =
          .NoMoreReply b ∧
      b.length = 2 * SNOW_PSKLEN + 2 * SNOW_TAGLEN + SIGNATURE_MESSAGE_LEN ∧
      b.length = 172 ∧
      b = responderFlight exResponder76
            (dh exResponder76.e_priv
              (decodeKey ((List.replicate 32 0).take SNOW_PSKLEN)))
            (dh exResponder76.s_priv
              (decodeKey ((List.replicate 32 0).take SNOW_PSKLEN))) ∧
      (responderFlight exResponder76
        (dh exResponder76.e_priv
          (decodeKey ((List.replicate 32 0).take SNOW_PSKLEN)))
        (dh exResponder76.s_priv
          (decodeKey ((List.replicate 32 0).take SNOW_PSKLEN)))).length =
        BUFFER_LEN) :=
  ⟨rfl, rfl,
   responder_second_flight_length exResponder76 (List.replicate 32 0)
     ({ exResponder76 with stage := 1, ee := some 0, es := some 0 })
     (.NoMoreReply (responderFlight exResponder76 0 0 ++
        List.replicate (BUFFER_LEN - (responderFlight exResponder76 0 0).length) 0))
     rfl rfl rfl⟩

/-- Counterexample for C8: the first initiator flight of a concrete
fresh initiator has length 32, not PSK_LEN + TAG_LEN = 48; the 48-byte
buffer is truncated to the bytes the -> e message actually needs. -/
theorem initiator_first_flight_counterexample :
    (Initiator.step exInitiator none).2 =
      .ok (.ExpectReply (encodeKey exInitiator.e_priv)) ∧
    (encodeKey exInitiator.e_priv).length = 32 ∧
    SNOW_PSKLEN + SNOW_TAGLEN = 48 ∧
    (encodeKey exInitiator.e_priv).length ≠ SNOW_PSKLEN + SNOW_TAGLEN := by
  refine ⟨rfl, by decide, rfl, by decide⟩

/-- Claim C8 (amended): for every freshly constructed Initiator, the
first call to step with no input succeeds, advances the stage and
returns ExpectReply bytes of length PSK_LEN = 32: the -> e message
carries only the 32-byte ephemeral public key, with no authentication
tag before any symmetric key exists, and the PSK_LEN + TAG_LEN buffer is
truncated to the bytes actually written. -/
theorem initiator_first_flight (i : Initiator) (h : i.stage = 0) :
    Initiator.step i none =
      ({ i with stage := i.stage + 1 }, .ok (.ExpectReply (encodeKey i.e_priv))) ∧
    (encodeKey i.e_priv).length = SNOW_PSKLEN :=
  ⟨initiator_step_stage0 i none h, encodeKey_length i.e_priv⟩

/-- Witness for C8: the concrete fresh initiator emits a 32-byte first
flight. -/
theorem initiator_first_flight_witness :
    exInitiator.stage = 0 ∧
    (Initiator.step exInitiator none =
      ({ exInitiator with stage := 1 }, .ok (.ExpectReply (encodeKey 2))) ∧
     (encodeKey 2).length = SNOW_PSKLEN) :=
  ⟨rfl, initiator_first_flight exInitiator rfl⟩

/-- Claim C3: after a successful handshake, a message within
MAX_FRAME_SIZE - TAG_LEN - HEADER_SIZE encrypted by either peer's
transport write (into a buffer of size_hint_encrypt bytes) is recovered
exactly by the other peer's transport read, and an in-order sequence of
such round trips all succeed. -/
theorem transport_roundtrip_after_handshake (i : Initiator) (r : Responder)
    (ti tr : TransportMode) (h : runHandshake i r = some (ti, tr)) :
    (∀ m : Bytes, m.length ≤ MAX_MESSAGE_SIZE - SNOW_TAGLEN - HEADER_SIZE →
      ∃ ti2 tr2, ti.write m = .ok (ti2, aeadEncrypt ti.sendKey ti.sendNonce m) ∧
        (aeadEncrypt ti.sendKey ti.sendNonce m).length = size_hint_encrypt m.length ∧
        tr.read (aeadEncrypt ti.sendKey ti.sendNonce m) = .ok (tr2, m)) ∧
    (∀ m : Bytes, m.length ≤ MAX_MESSAGE_SIZE - SNOW_TAGLEN - HEADER_SIZE →
      ∃ tr2 ti2, tr.write m = .ok (tr2, aeadEncrypt tr.sendKey tr.sendNonce m) ∧
        (aeadEncrypt tr.sendKey tr.sendNonce m).length = size_hint_encrypt m.length ∧
        ti.read (aeadEncrypt tr.sendKey tr.sendNonce m) = .ok (ti2, m)) ∧
    (∀ ms : List Bytes,
      (∀ m ∈ ms, m.length ≤ MAX_MESSAGE_SIZE - SNOW_TAGLEN - HEADER_SIZE) →
      ms.length < 2 ^ 64 →
      ∃ ti2 cs tr2, writeSeq ti ms = .ok (ti2, cs) ∧
        readSeq tr cs = .ok (tr2, ms)) := by
  obtain ⟨E, S, hti, htr⟩ := runHandshake_pairs i r ti tr h
  subst hti
  subst htr
  have hnn : (0 : Nat) < U64_MAX := by decide
  refine ⟨?_, ?_, ?_⟩
  · intro m hm
    have hsize : m.length + SNOW_TAGLEN ≤ MAX_MESSAGE_SIZE := by
      simp only [MAX_MESSAGE_SIZE, SNOW_TAGLEN, HEADER_SIZE] at hm ⊢
      omega
    obtain ⟨hw, hr⟩ := write_then_read
      ⟨transportKeyIR E S, transportKeyRI E S, 0, 0⟩
      ⟨transportKeyRI E S, transportKeyIR E S, 0, 0⟩ m rfl rfl hnn hsize
    exact ⟨_, _, hw, aeadEncrypt_length _ _ _, hr⟩
  · intro m hm
    have hsize : m.length + SNOW_TAGLEN ≤ MAX_MESSAGE_SIZE := by
      simp only [MAX_MESSAGE_SIZE, SNOW_TAGLEN, HEADER_SIZE] at hm ⊢
      omega
    obtain ⟨hw, hr⟩ := write_then_read
      ⟨transportKeyRI E S, transportKeyIR E S, 0, 0⟩
      ⟨transportKeyIR E S, transportKeyRI E S, 0, 0⟩ m rfl rfl hnn hsize
    exact ⟨_, _, hw, aeadEncrypt_length _ _ _, hr⟩
  · intro ms hms hlen
    refine seq_roundtrip ms _ _ rfl rfl (by simpa using hlen) ?_
    intro m hm
    have := hms m hm
    simp only [MAX_MESSAGE_SIZE, SNOW_TAGLEN, HEADER_SIZE] at this ⊢
    omega

set_option maxRecDepth 8000 in
/-- Witness for C3: the concrete initiator and responder complete the
handshake, and a 3-byte message round-trips from initiator to responder
through the resulting transport states. -/
theorem transport_roundtrip_after_handshake_witness :
    runHandshake exInitiator exResponder =
      some (⟨transportKeyIR 6 10, transportKeyRI 6 10, 0, 0⟩,
            ⟨transportKeyRI 6 10, transportKeyIR 6 10, 0, 0⟩) ∧
    ([1, 2, 3] : Bytes).length ≤ MAX_MESSAGE_SIZE - SNOW_TAGLEN - HEADER_SIZE ∧
    (∃ ti2 tr2,
      TransportMode.write ⟨transportKeyIR 6 10, transportKeyRI 6 10, 0, 0⟩ [1, 2, 3] =
        .ok (ti2, aeadEncrypt (transportKeyIR 6 10) 0 [1, 2, 3]) ∧
      (aeadEncrypt (transportKeyIR 6 10) 0 [1, 2, 3]).length =
        size_hint_encrypt ([1, 2, 3] : Bytes).length ∧
      TransportMode.read ⟨transportKeyRI 6 10, transportKeyIR 6 10, 0, 0⟩
          (aeadEncrypt (transportKeyIR 6 10) 0 [1, 2, 3]) = .ok (tr2, [1, 2, 3])) :=
  ⟨rfl, by decide,
   (transport_roundtrip_after_handshake exInitiator exResponder
     ⟨transportKeyIR 6 10, transportKeyRI 6 10, 0, 0⟩
     ⟨transportKeyRI 6 10, transportKeyIR 6 10, 0, 0⟩ rfl).1 [1, 2, 3] (by decide)⟩

end Stratum
